import Mathlib

/-!
# heroku-cli `request.go`: TLS trust bootstrap and paginated fetch

A shallow embedding of `request.go`.  Effects of the Go program (environment,
network, file system, console) are made explicit: the environment and the
collaborating libraries are collected in `Platform`, the network answering the
requests of one paginated call is a function of the request number and the
request, and `getCACerts` threads a `Sys` state through its steps.
-/

namespace HerokuCli

/-! ## Go values used by `request.go` -/

/-- Go `error` values: the ones made by `errors.New`, and every other error
(transport errors of the HTTP library, errors of the page handler, file-system
errors), identified by a tag and carrying a message. -/
inductive GoError where
  | errorString (s : String)
  | foreign (tag : Nat) (msg : String)
deriving DecidableEq, Repr

/-- Go `errors.New`. -/
def errorsNew (s : String) : GoError := GoError.errorString s

/-- Go `err.Error()`: the message of an error. -/
def GoError.Error : GoError → String
  | GoError.errorString s => s
  | GoError.foreign _ msg => msg

/-- Byte strings (`[]byte`, bodies, file contents). -/
abbrev Bytes := List Nat

/-- One entry of the header list of a `goreq.Request`. -/
structure headerTuple where
  name : String
  value : String
deriving DecidableEq, Repr

/-- The fields of `goreq.Request` that `request.go` sets. -/
structure Request where
  Uri : String
  Method : String
  ShowDebug : Bool
  Insecure : Bool
  headers : List headerTuple
deriving DecidableEq, Repr

/-- The method `AddHeader` of `goreq.Request`: appends one header tuple. -/
def Request.AddHeader (r : Request) (name value : String) : Request :=
  { r with headers := r.headers ++ [⟨name, value⟩] }

/-- The fields of `goreq.Response` that `request.go` reads.  `Header` is the
`http.Header` map from a header name to its values. -/
structure Response where
  StatusCode : Int
  Status : String
  Header : List (String × List String)
  Body : Bytes
deriving DecidableEq, Repr

/-- The method `Get` of `http.Header`: the first value stored under the key, or
the empty string when there is none. -/
def headerGet (h : List (String × List String)) (key : String) : String :=
  match h.lookup key with
  | some (v :: _) => v
  | _ => ""

/-- HTTP header names are compared without regard to letter case. -/
def headerNameEq (a b : String) : Bool :=
  a.data.map Char.toLower == b.data.map Char.toLower

/-- A request carries a header of the given name with the given value. -/
def Request.carries (r : Request) (name value : String) : Prop :=
  ∃ t ∈ r.headers, headerNameEq t.name name = true ∧ t.value = value

/-- The values of all the headers of the given name that a request carries, in
the order they were added; the first one is what `Header.Get` of the name
gives on the outgoing request. -/
def Request.headerValues (r : Request) (name : String) : List String :=
  (r.headers.filter fun t => headerNameEq t.name name).map fun t => t.value

/-- A request carries some header of the given name. -/
def Request.hasHeader (r : Request) (name : String) : Bool :=
  r.headers.any fun t => headerNameEq t.name name

/-- What `request.go` takes from its surroundings: the process environment
(`os.Getenv`, the empty string for an unset variable), `apiURL()` and
`debugging` of the same package, `AppDir()`, `filepath.Join`, the decoding
of the `HEROKU_HEADERS` JSON object into the key/value pairs in the order the
`range` loop visits them, and the certificates that
`AppendCertsFromPEM` decodes from a byte string. -/
structure Platform where
  Getenv : String → String
  apiURL : String
  debugging : Bool
  AppDir : String
  Join : String → String → String
  jsonUnmarshal : String → List (String × String)
  decodePEM : Bytes → List Nat

/-! ## Request construction -/

/-- Go `strings.HasSuffix`. -/
def HasSuffix (s suffix : String) : Bool :=
  suffix.data.isSuffixOf s.data

/-- Source: `useSystemCerts`. -/
def useSystemCerts (P : Platform) : Bool :=
  let e := P.Getenv "HEROKU_USE_SYSTEM_CERTS"
  e != "false" && e != "0"

/-- Source: `shouldVerifyHost`. -/
def shouldVerifyHost (P : Platform) (host : String) : Bool :=
  !(P.Getenv "HEROKU_SSL_VERIFY" == "disable" || HasSuffix host "herokudev.com")

/-- Source: `apiRequestBase`. -/
def apiRequestBase (P : Platform) (authToken : String) : Request :=
  let req : Request :=
    { Uri := P.apiURL
      Method := ""
      ShowDebug := P.debugging
      Insecure := !shouldVerifyHost P P.apiURL
      headers := [] }
  let req := if authToken != "" then req.AddHeader "Authorization" ("Bearer " ++ authToken) else req
  let req :=
    if P.Getenv "HEROKU_HEADERS" != "" then
      (P.jsonUnmarshal (P.Getenv "HEROKU_HEADERS")).foldl (fun r kv => r.AddHeader kv.1 kv.2) req
    else req
  req

/-- Source: `apiRequest`. -/
def apiRequest (P : Platform) (authToken : String) : Request :=
  (apiRequestBase P authToken).AddHeader "Accept" "application/vnd.heroku+json; version=3"

/-! ## Paginated fetch -/

/-- The network as seen by one call of `apiPartialRequests`: the outcome of
`req.Do()` for the request number `k` (counted from 0) of the call. -/
abbrev Transport := Nat → Request → Except GoError Response

/-- The page handler `responseFn`: its result on its invocation number `k`
(counted from 0) for the given response; `none` is Go `nil`. -/
abbrev responseFn := Nat → Response → Option GoError

/-- What one call of `apiPartialRequests` did: the requests issued, in order,
the responses received, in order, the responses handed to the handler, in
order, and the value returned (`some none` is a `nil` return; `none` means the
loop was still running when the step budget ended). -/
structure Run where
  requests : List Request
  responses : List Response
  handled : List Response
  result : Option (Option GoError)
deriving DecidableEq, Repr

/-- A run that starts with one more request, answered and handled. -/
def Run.after (req : Request) (res : Response) (rest : Run) : Run :=
  { requests := req :: rest.requests
    responses := res :: rest.responses
    handled := res :: rest.handled
    result := rest.result }

/-- The loop condition `res == nil || res.StatusCode == 206`. -/
def loopCond (res : Option Response) : Bool :=
  match res with
  | none => true
  | some r => r.StatusCode == 206

/-- The request built by one loop iteration (lines 106 to 111) from the
previous response `res`. -/
def buildRequest (P : Platform) (token url : String) (res : Option Response) : Request :=
  let req := apiRequest P token
  let req := { req with Method := "GET" }
  let req := { req with Uri := req.Uri ++ url }
  match res with
  | some r => req.AddHeader "Range" (headerGet r.Header "Next-Range")
  | none => req

/-- The `for` loop of `apiPartialRequests`, with a step budget: `k` counts the
iterations done, `res` and `err` are the Go variables of the same names. -/
def partialLoop (P : Platform) (tr : Transport) (token url : String) (respFn : responseFn) :
    Nat → Nat → Option Response → Option GoError → Run
  | 0, _, _, _ => { requests := [], responses := [], handled := [], result := none }
  | fuel + 1, k, res, err =>
    if loopCond res then
      let req := buildRequest P token url res
      match tr k req with
      | Except.error e =>
        { requests := [req], responses := [], handled := [], result := some (some e) }
      | Except.ok r =>
        if r.StatusCode != 200 && r.StatusCode != 206 then
          { requests := [req], responses := [r], handled := []
            result := some (some (errorsNew r.Status)) }
        else
          match respFn k r with
          | some e =>
            { requests := [req], responses := [r], handled := [r], result := some (some e) }
          | none => Run.after req r (partialLoop P tr token url respFn fuel (k + 1) (some r) none)
    else
      { requests := [], responses := [], handled := [], result := some err }

/-- Source: `apiPartialRequests`. -/
def apiPartialRequests (P : Platform) (tr : Transport) (token url : String)
    (respFn : responseFn) (fuel : Nat) : Run :=
  partialLoop P tr token url respFn fuel 0 none none

/-! ### Describing what the server sent -/

/-- The transport answers the successive requests of a call, from request number
`k` on and after the previous response `prev`, with the responses `rs`, none of
them a transport error. -/
def answersFrom (P : Platform) (tr : Transport) (token url : String) :
    Nat → Option Response → List Response → Prop
  | _, _, [] => True
  | k, prev, r :: rs =>
    tr k (buildRequest P token url prev) = Except.ok r ∧
      answersFrom P tr token url (k + 1) (some r) rs

/-- The requests that the responses `rs` were the answers to. -/
def requestsFrom (P : Platform) (token url : String) :
    Option Response → List Response → List Request
  | _, [] => []
  | prev, r :: rs => buildRequest P token url prev :: requestsFrom P token url (some r) rs

/-- The handler accepts (returns `nil` for) each of the pages `rs`, handed to it
in invocations `k`, `k + 1`, and so on. -/
def acceptsFrom (respFn : responseFn) : Nat → List Response → Prop
  | _, [] => True
  | k, r :: rs => respFn k r = none ∧ acceptsFrom respFn (k + 1) rs

/-- The last response of `rs`, or `prev` when there is none. -/
def lastResponse : Option Response → List Response → Option Response
  | prev, [] => prev
  | _, r :: rs => lastResponse (some r) rs

/-- The run that first exchanges the requests `qs` for the pages `rs`, all
handled, and then goes on as `rest`. -/
def Run.prepend (qs : List Request) (rs : List Response) (rest : Run) : Run :=
  { requests := qs ++ rest.requests
    responses := rs ++ rest.responses
    handled := rs ++ rest.handled
    result := rest.result }

/-! ## TLS trust bootstrap -/

/-- A line on the console. -/
inductive Message where
  | error (e : GoError)
  | warning (msg : String)
deriving DecidableEq, Repr

/-- A certificate pool (`x509.CertPool`): the certificates added to it. -/
abbrev CertPool := List Nat

/-- The state `getCACerts` works on: the readable files with their contents
(the first entry for a path counts), which paths `os.Create` can create, the
outcome of a request sent to the network, the OS error for a path, and the
logs of the requests sent, of the `ReadFile` calls and of the console. -/
structure Sys where
  files : List (String × Bytes)
  creatable : String → Bool
  network : Request → Except GoError Response
  fsError : String → GoError
  fetched : List Request
  reads : List String
  console : List Message

/-- Go `ioutil.ReadFile`: the contents of a readable file, an error otherwise;
the call is logged. -/
def ReadFile (path : String) (s : Sys) : Except GoError Bytes × Sys :=
  let s1 := { s with reads := s.reads ++ [path] }
  match s.files.lookup path with
  | some data => (Except.ok data, s1)
  | none => (Except.error (s.fsError path), s1)

/-- Go `os.Create`: creates the file or truncates it; the handle is the path. -/
def osCreate (path : String) (s : Sys) : Except GoError String × Sys :=
  if s.creatable path then
    (Except.ok path, { s with files := (path, []) :: s.files })
  else
    (Except.error (s.fsError path), s)

/-- The method `Do` of a `goreq.Request` outside a paginated call: one network
round trip, logged. -/
def goreqDo (req : Request) (s : Sys) : Except GoError Response × Sys :=
  (s.network req, { s with fetched := s.fetched ++ [req] })

/-- Go `io.Copy(f, body)` into a file just created: the file holds the bytes
the body delivered; the result of the copy is dropped by the caller. -/
def ioCopy (f : String) (body : Bytes) (s : Sys) : Sys :=
  { s with files := (f, body) :: s.files }

/-- Modelled from the spec: `PrintError` of this repository is not among the
sources; errors "are reported (logged / surfaced)", here as a console line. -/
def PrintError (e : GoError) (s : Sys) : Sys :=
  { s with console := s.console ++ [Message.error e] }

/-- Modelled from the spec: `Warn` of this repository is not among the sources;
a failure "is reported as a warning", here as a console line. -/
def Warn (msg : String) (s : Sys) : Sys :=
  { s with console := s.console ++ [Message.warning msg] }

/-- Go `x509.NewCertPool`. -/
def NewCertPool : CertPool := []

/-- The method `AppendCertsFromPEM` of a pool: adds the certificates decoded
from the data and reports whether there was at least one. -/
def AppendCertsFromPEM (P : Platform) (certs : CertPool) (data : Bytes) : CertPool × Bool :=
  (certs ++ P.decodePEM data, !(P.decodePEM data).isEmpty)

/-- The request `downloadCert` sends. -/
def certRequest (P : Platform) : Request :=
  { Uri := "https://cli-assets.heroku.com/cacert.pem"
    Method := ""
    ShowDebug := P.debugging
    Insecure := false
    headers := [] }

/-- Source: `downloadCert`. -/
def downloadCert (P : Platform) (path : String) (s : Sys) : Sys :=
  match osCreate path s with
  | (Except.error err, s) => PrintError err s
  | (Except.ok f, s) =>
    match goreqDo (certRequest P) s with
    | (Except.error err, s) => PrintError err s
    | (Except.ok res, s) => ioCopy f res.Body s

/-- Source: `getCACerts`; `none` is the `nil` pool. -/
def getCACerts (P : Platform) (s : Sys) : Option CertPool × Sys :=
  let certs := NewCertPool
  let path := P.Join P.AppDir "cacert.pem"
  let (data, s) := ReadFile path s
  let (data, s) :=
    match data with
    | Except.error _ => ReadFile path (downloadCert P path s)
    | Except.ok d => (Except.ok d, s)
  match data with
  | Except.error err => (none, PrintError err s)
  | Except.ok data =>
    let (certs, ok) := AppendCertsFromPEM P certs data
    if !ok then (none, Warn ("Error parsing " ++ path) s)
    else (some certs, s)

/-! ## Sample inputs -/

/-- A platform with an empty environment. -/
def samplePlatform : Platform :=
  { Getenv := fun _ => ""
    apiURL := "https://api.heroku.com"
    debugging := false
    AppDir := "/home/u/.heroku"
    Join := fun a b => a ++ "/" ++ b
    jsonUnmarshal := fun _ => []
    decodePEM := fun b => b.filter fun x => x == 45 }

/-- A platform whose `HEROKU_HEADERS` injects a `Range` header. -/
def rangePlatform : Platform :=
  { samplePlatform with
    Getenv := fun k => if k == "HEROKU_HEADERS" then "\x7b\"Range\":\"hack\"\x7d" else ""
    jsonUnmarshal := fun j => if j == "\x7b\"Range\":\"hack\"\x7d" then [("Range", "hack")] else [] }

/-- A partial page with the given continuation marker. -/
def page206 (next : String) : Response :=
  { StatusCode := 206, Status := "206 Partial Content", Header := [("Next-Range", [next])], Body := [] }

/-- A partial page without continuation marker. -/
def page206bare : Response :=
  { StatusCode := 206, Status := "206 Partial Content", Header := [], Body := [] }

/-- A final page. -/
def page200 : Response :=
  { StatusCode := 200, Status := "200 OK", Header := [], Body := [] }

/-- A server failure. -/
def page500 : Response :=
  { StatusCode := 500, Status := "500 Internal Server Error", Header := [], Body := [] }

/-- A transport that serves the given responses in turn, then final pages. -/
def scripted (script : List Response) : Transport :=
  fun k _ => Except.ok (script.getD k page200)

/-- A transport that serves one partial page and then fails. -/
def brokenTransport : Transport :=
  fun k _ => if k == 0 then Except.ok (page206 "a") else Except.error (GoError.foreign 1 "dial tcp: timeout")

/-- A handler that accepts every page. -/
def acceptAll : responseFn := fun _ _ => none

/-- A handler that fails on its second page. -/
def failSecond : responseFn :=
  fun k _ => if k == 1 then some (GoError.foreign 7 "bad page") else none

/-- A system without cache file, whose network serves a bundle. -/
def freshSys : Sys :=
  { files := []
    creatable := fun _ => true
    network := fun _ => Except.ok { StatusCode := 200, Status := "200 OK", Header := [], Body := [45, 45, 66] }
    fsError := fun p => GoError.foreign 2 ("open " ++ p ++ ": no such file or directory")
    fetched := []
    reads := []
    console := [] }

/-- A system whose cache file holds no certificate. -/
def garbageSys : Sys :=
  { freshSys with files := [("/home/u/.heroku/cacert.pem", [1, 2, 3])] }

/-! ## Lemmas on the loop -/

section Loop

variable (P : Platform) (tr : Transport) (token url : String) (respFn : responseFn)

/-! ### The five ways one step of the loop can go -/

theorem partialLoop_stop (fuel k : Nat) (res : Option Response) (err : Option GoError)
    (hc : loopCond res = false) :
    partialLoop P tr token url respFn (fuel + 1) k res err =
      { requests := [], responses := [], handled := [], result := some err } := by
  rw [partialLoop]; simp [hc]

theorem partialLoop_transport (fuel k : Nat) (res : Option Response) (err : Option GoError)
    (e : GoError) (hc : loopCond res = true)
    (htr : tr k (buildRequest P token url res) = Except.error e) :
    partialLoop P tr token url respFn (fuel + 1) k res err =
      { requests := [buildRequest P token url res], responses := [], handled := []
        result := some (some e) } := by
  rw [partialLoop]; simp [hc, htr]

theorem partialLoop_status (fuel k : Nat) (res : Option Response) (err : Option GoError)
    (r : Response) (hc : loopCond res = true)
    (htr : tr k (buildRequest P token url res) = Except.ok r)
    (h200 : r.StatusCode ≠ 200) (h206 : r.StatusCode ≠ 206) :
    partialLoop P tr token url respFn (fuel + 1) k res err =
      { requests := [buildRequest P token url res], responses := [r], handled := []
        result := some (some (errorsNew r.Status)) } := by
  rw [partialLoop]; simp [hc, htr, h200, h206]

theorem partialLoop_handler (fuel k : Nat) (res : Option Response) (err : Option GoError)
    (r : Response) (e : GoError) (hc : loopCond res = true)
    (htr : tr k (buildRequest P token url res) = Except.ok r)
    (hs : r.StatusCode = 200 ∨ r.StatusCode = 206) (hh : respFn k r = some e) :
    partialLoop P tr token url respFn (fuel + 1) k res err =
      { requests := [buildRequest P token url res], responses := [r], handled := [r]
        result := some (some e) } := by
  rw [partialLoop]
  rcases hs with hs | hs <;> simp [hc, htr, hs, hh]

theorem partialLoop_next (fuel k : Nat) (res : Option Response) (err : Option GoError)
    (r : Response) (hc : loopCond res = true)
    (htr : tr k (buildRequest P token url res) = Except.ok r)
    (hs : r.StatusCode = 200 ∨ r.StatusCode = 206) (hh : respFn k r = none) :
    partialLoop P tr token url respFn (fuel + 1) k res err =
      Run.after (buildRequest P token url res) r
        (partialLoop P tr token url respFn fuel (k + 1) (some r) none) := by
  rw [partialLoop]
  rcases hs with hs | hs <;> simp [hc, htr, hs, hh]

/-- The case analysis of one step of the loop. -/
theorem partialLoop_cases (fuel k : Nat) (res : Option Response) (err : Option GoError) :
    (loopCond res = false ∧
        partialLoop P tr token url respFn (fuel + 1) k res err =
          { requests := [], responses := [], handled := [], result := some err }) ∨
      (loopCond res = true ∧ ∃ e,
        tr k (buildRequest P token url res) = Except.error e ∧
        partialLoop P tr token url respFn (fuel + 1) k res err =
          { requests := [buildRequest P token url res], responses := [], handled := []
            result := some (some e) }) ∨
      (loopCond res = true ∧ ∃ r,
        tr k (buildRequest P token url res) = Except.ok r ∧
        r.StatusCode ≠ 200 ∧ r.StatusCode ≠ 206 ∧
        partialLoop P tr token url respFn (fuel + 1) k res err =
          { requests := [buildRequest P token url res], responses := [r], handled := []
            result := some (some (errorsNew r.Status)) }) ∨
      (loopCond res = true ∧ ∃ r e,
        tr k (buildRequest P token url res) = Except.ok r ∧
        (r.StatusCode = 200 ∨ r.StatusCode = 206) ∧ respFn k r = some e ∧
        partialLoop P tr token url respFn (fuel + 1) k res err =
          { requests := [buildRequest P token url res], responses := [r], handled := [r]
            result := some (some e) }) ∨
      (loopCond res = true ∧ ∃ r,
        tr k (buildRequest P token url res) = Except.ok r ∧
        (r.StatusCode = 200 ∨ r.StatusCode = 206) ∧ respFn k r = none ∧
        partialLoop P tr token url respFn (fuel + 1) k res err =
          Run.after (buildRequest P token url res) r
            (partialLoop P tr token url respFn fuel (k + 1) (some r) none)) := by
  by_cases hc : loopCond res = true
  · cases htr : tr k (buildRequest P token url res) with
    | error e =>
      exact Or.inr (Or.inl ⟨hc, e, rfl, partialLoop_transport P tr token url respFn fuel k res err e hc htr⟩)
    | ok r =>
      by_cases h200 : r.StatusCode = 200
      · cases hh : respFn k r with
        | some e =>
          exact Or.inr (Or.inr (Or.inr (Or.inl ⟨hc, r, e, rfl, Or.inl h200, hh,
            partialLoop_handler P tr token url respFn fuel k res err r e hc htr (Or.inl h200) hh⟩)))
        | none =>
          exact Or.inr (Or.inr (Or.inr (Or.inr ⟨hc, r, rfl, Or.inl h200, hh,
            partialLoop_next P tr token url respFn fuel k res err r hc htr (Or.inl h200) hh⟩)))
      · by_cases h206 : r.StatusCode = 206
        · cases hh : respFn k r with
          | some e =>
            exact Or.inr (Or.inr (Or.inr (Or.inl ⟨hc, r, e, rfl, Or.inr h206, hh,
              partialLoop_handler P tr token url respFn fuel k res err r e hc htr (Or.inr h206) hh⟩)))
          | none =>
            exact Or.inr (Or.inr (Or.inr (Or.inr ⟨hc, r, rfl, Or.inr h206, hh,
              partialLoop_next P tr token url respFn fuel k res err r hc htr (Or.inr h206) hh⟩)))
        · exact Or.inr (Or.inr (Or.inl ⟨hc, r, rfl, h200, h206,
            partialLoop_status P tr token url respFn fuel k res err r hc htr h200 h206⟩))
  · have hc2 : loopCond res = false := by simpa using hc
    exact Or.inl ⟨hc2, partialLoop_stop P tr token url respFn fuel k res err hc2⟩

theorem partialLoop_pages (m : Nat) :
    ∀ (rs : List Response) (k : Nat) (prev : Option Response),
      loopCond prev = true →
      answersFrom P tr token url k prev rs →
      (∀ r ∈ rs, r.StatusCode = 206) →
      acceptsFrom respFn k rs →
      partialLoop P tr token url respFn (rs.length + m) k prev none =
        Run.prepend (requestsFrom P token url prev rs) rs
          (partialLoop P tr token url respFn m (k + rs.length) (lastResponse prev rs) none) := by
  intro rs
  induction rs with
  | nil =>
    intro k prev _ _ _ _
    simp [Run.prepend, requestsFrom, lastResponse]
  | cons r rs ih =>
    intro k prev hc ha h206 hacc
    have hr : r.StatusCode = 206 := h206 r (List.mem_cons_self _ _)
    have hfuel : (r :: rs).length + m = (rs.length + m) + 1 := by
      simp only [List.length_cons]; omega
    have hc2 : loopCond (some r) = true := by simp [loopCond, hr]
    rw [hfuel, partialLoop_next P tr token url respFn _ k prev none r hc ha.1 (Or.inr hr) hacc.1]
    rw [ih (k + 1) (some r) hc2 ha.2 (fun x hx => h206 x (List.mem_cons_of_mem _ hx)) hacc.2]
    simp [Run.after, Run.prepend, requestsFrom, lastResponse, Nat.add_assoc, Nat.add_comm 1]

theorem answersFrom_append (x : Response) :
    ∀ (rs : List Response) (k : Nat) (prev : Option Response),
      answersFrom P tr token url k prev (rs ++ [x]) ↔
        answersFrom P tr token url k prev rs ∧
          tr (k + rs.length) (buildRequest P token url (lastResponse prev rs)) = Except.ok x := by
  intro rs
  induction rs with
  | nil => intro k prev; simp [answersFrom, lastResponse]
  | cons r rs ih =>
    intro k prev
    show (_ ∧ answersFrom P tr token url (k + 1) (some r) (rs ++ [x])) ↔ _
    rw [ih]
    simp [answersFrom, lastResponse, and_assoc, Nat.add_assoc, Nat.add_comm 1]

theorem loopCond_lastResponse :
    ∀ (rs : List Response) (prev : Option Response),
      loopCond prev = true → (∀ r ∈ rs, r.StatusCode = 206) →
      loopCond (lastResponse prev rs) = true := by
  intro rs
  induction rs with
  | nil => intro prev hc _; simpa [lastResponse] using hc
  | cons r rs ih =>
    intro prev _ h206
    have hr : r.StatusCode = 206 := h206 r (List.mem_cons_self _ _)
    exact ih (some r) (by simp [loopCond, hr]) (fun x hx => h206 x (List.mem_cons_of_mem _ hx))

theorem requestsFrom_length :
    ∀ (rs : List Response) (prev : Option Response),
      (requestsFrom P token url prev rs).length = rs.length := by
  intro rs
  induction rs with
  | nil => intro prev; rfl
  | cons r rs ih => intro prev; simp [requestsFrom, ih]

theorem requestsFrom_append (x : Response) :
    ∀ (rs : List Response) (prev : Option Response),
      requestsFrom P token url prev (rs ++ [x]) =
        requestsFrom P token url prev rs ++ [buildRequest P token url (lastResponse prev rs)] := by
  intro rs
  induction rs with
  | nil => intro prev; rfl
  | cons r rs ih => intro prev; simp [requestsFrom, lastResponse, ih]

/-- Every request after the first one answers to the response before it. -/
theorem requestsFrom_succ :
    ∀ (rs : List Response) (prev : Option Response) (i : Nat) (q : Request),
      (requestsFrom P token url prev rs ++
          [buildRequest P token url (lastResponse prev rs)])[i + 1]? = some q →
      ∃ r, rs[i]? = some r ∧ q = buildRequest P token url (some r) := by
  intro rs
  induction rs with
  | nil => intro prev i q h; simp [requestsFrom] at h
  | cons r rs ih =>
    intro prev i q h
    simp only [requestsFrom, lastResponse, List.cons_append, List.getElem?_cons_succ] at h
    cases i with
    | zero =>
      refine ⟨r, by simp, ?_⟩
      cases rs with
      | nil => simpa [requestsFrom, lastResponse, eq_comm] using h
      | cons r2 rs2 => simpa [requestsFrom, eq_comm] using h
    | succ j =>
      obtain ⟨r3, h1, h2⟩ := ih (some r) j q h
      exact ⟨r3, by simpa using h1, h2⟩

/-- The requests of a run are the ones the received responses were answers to,
followed by at most one request that got no response. -/
theorem partialLoop_requests :
    ∀ (fuel k : Nat) (res : Option Response) (err : Option GoError),
      (partialLoop P tr token url respFn fuel k res err).requests =
          requestsFrom P token url res
            (partialLoop P tr token url respFn fuel k res err).responses ∨
        (partialLoop P tr token url respFn fuel k res err).requests =
          requestsFrom P token url res
              (partialLoop P tr token url respFn fuel k res err).responses ++
            [buildRequest P token url
              (lastResponse res (partialLoop P tr token url respFn fuel k res err).responses)] := by
  intro fuel
  induction fuel with
  | zero => intro k res err; left; simp [partialLoop, requestsFrom]
  | succ fuel ih =>
    intro k res err
    rcases partialLoop_cases P tr token url respFn fuel k res err with
      ⟨_, h⟩ | ⟨_, e, _, h⟩ | ⟨_, r, _, _, _, h⟩ | ⟨_, r, e, _, _, _, h⟩ | ⟨_, r, _, _, _, h⟩
    · left; rw [h]; rfl
    · right; rw [h]; rfl
    · left; rw [h]; rfl
    · left; rw [h]; rfl
    · rw [h]
      rcases ih (k + 1) (some r) none with h2 | h2
      · left
        simp only [Run.after, requestsFrom]
        rw [← h2]
      · right
        simp only [Run.after, requestsFrom, lastResponse, List.cons_append]
        rw [← h2]

/-- While the loop condition holds and budget remains, a request is issued. -/
theorem partialLoop_first_request (fuel k : Nat) (res : Option Response) (err : Option GoError)
    (hc : loopCond res = true) :
    (partialLoop P tr token url respFn (fuel + 1) k res err).requests[0]? =
      some (buildRequest P token url res) := by
  rcases partialLoop_cases P tr token url respFn fuel k res err with
    ⟨h0, _⟩ | ⟨_, e, _, h⟩ | ⟨_, r, _, _, _, h⟩ | ⟨_, r, e, _, _, _, h⟩ | ⟨_, r, _, _, _, h⟩
  · rw [hc] at h0; cases h0
  · rw [h]; rfl
  · rw [h]; rfl
  · rw [h]; rfl
  · rw [h]; simp [Run.after]

/-- A page of status 206 that the handler accepted is followed by a request
built from that page, whatever its headers. -/
theorem partialLoop_continues :
    ∀ (fuel k : Nat) (res : Option Response) (err : Option GoError) (i : Nat) (r : Response),
      (partialLoop P tr token url respFn fuel k res err).responses[i]? = some r →
      r.StatusCode = 206 → respFn (k + i) r = none → i + 2 ≤ fuel →
      (partialLoop P tr token url respFn fuel k res err).requests[i + 1]? =
        some (buildRequest P token url (some r)) := by
  intro fuel
  induction fuel with
  | zero => intro k res err i r _ _ _ hf; omega
  | succ fuel ih =>
    intro k res err i r hres h206 hnil hf
    rcases partialLoop_cases P tr token url respFn fuel k res err with
      ⟨_, h⟩ | ⟨_, e, _, h⟩ | ⟨_, r1, _, _, hn, h⟩ | ⟨_, r1, e, _, _, hh, h⟩ | ⟨_, r1, _, _, hh, h⟩
    · rw [h] at hres; simp at hres
    · rw [h] at hres; simp at hres
    · rw [h] at hres
      cases i with
      | zero =>
        simp only [List.getElem?_cons_zero, Option.some.injEq] at hres
        subst hres
        exact absurd h206 hn
      | succ j => simp at hres
    · rw [h] at hres
      cases i with
      | zero =>
        simp only [List.getElem?_cons_zero, Option.some.injEq] at hres
        subst hres
        simp [hh] at hnil
      | succ j => simp at hres
    · rw [h] at hres ⊢
      simp only [Run.after] at hres ⊢
      cases i with
      | zero =>
        simp only [List.getElem?_cons_zero, Option.some.injEq] at hres
        subst hres
        obtain ⟨f2, rfl⟩ : ∃ f2, fuel = f2 + 1 := ⟨fuel - 1, by omega⟩
        simpa using partialLoop_first_request P tr token url respFn f2 (k + 1) (some r1) none
          (by simp [loopCond, h206])
      | succ j =>
        simp only [List.getElem?_cons_succ] at hres ⊢
        exact ih (k + 1) (some r1) none j r hres h206
          (by rw [show k + 1 + j = k + (j + 1) by omega]; exact hnil) (by omega)

theorem acceptsFrom_of_forall (h : ∀ k r, respFn k r = none) :
    ∀ (rs : List Response) (k : Nat), acceptsFrom respFn k rs := by
  intro rs
  induction rs with
  | nil => intro k; trivial
  | cons r rs ih => intro k; exact ⟨h k r, ih (k + 1)⟩

theorem buildRequest_some_headers (r : Response) :
    (buildRequest P token url (some r)).headers =
      (apiRequest P token).headers ++ [⟨"Range", headerGet r.Header "Next-Range"⟩] := rfl

theorem buildRequest_none_headers :
    (buildRequest P token url none).headers = (apiRequest P token).headers := rfl

theorem foldl_AddHeader_headers :
    ∀ (l : List (String × String)) (req : Request),
      (l.foldl (fun r kv => r.AddHeader kv.1 kv.2) req).headers =
        req.headers ++ l.map (fun kv => (⟨kv.1, kv.2⟩ : headerTuple)) := by
  intro l
  induction l with
  | nil => intro req; simp
  | cons kv l ih =>
    intro req
    simp only [List.foldl_cons, List.map_cons]
    rw [ih]
    simp [Request.AddHeader]

/-- The headers of a request template: the bearer token if there is one, the
injected headers if there are any, and the versioned `Accept`. -/
theorem apiRequest_headers :
    (apiRequest P token).headers =
      (if token = "" then [] else [(⟨"Authorization", "Bearer " ++ token⟩ : headerTuple)]) ++
        (if P.Getenv "HEROKU_HEADERS" = "" then []
          else (P.jsonUnmarshal (P.Getenv "HEROKU_HEADERS")).map
            (fun kv => (⟨kv.1, kv.2⟩ : headerTuple))) ++
        [⟨"Accept", "application/vnd.heroku+json; version=3"⟩] := by
  unfold apiRequest apiRequestBase
  by_cases hh : P.Getenv "HEROKU_HEADERS" = "" <;> by_cases ht : token = ""
  · simp [hh, ht, Request.AddHeader]
  · simp [hh, ht, Request.AddHeader]
  · simp only [hh, ht, bne_self_eq_false, Bool.false_eq_true, if_false, bne_iff_ne, ne_eq,
      not_false_eq_true, if_true]
    show (_ ++ [_] : List headerTuple) = _
    rw [foldl_AddHeader_headers]
  · simp only [hh, ht, bne_iff_ne, ne_eq, not_false_eq_true, if_true, if_false]
    show (_ ++ [_] : List headerTuple) = _
    rw [foldl_AddHeader_headers]
    simp [Request.AddHeader]

/-- Without an injected `Range` header the first request has none. -/
theorem buildRequest_none_no_range
    (hinj : P.Getenv "HEROKU_HEADERS" = "" ∨
      ∀ kv ∈ P.jsonUnmarshal (P.Getenv "HEROKU_HEADERS"), headerNameEq kv.1 "Range" = false) :
    (buildRequest P token url none).hasHeader "Range" = false := by
  have hAuth : headerNameEq "Authorization" "Range" = false := by decide
  have hAcc : headerNameEq "Accept" "Range" = false := by decide
  unfold Request.hasHeader
  rw [buildRequest_none_headers, apiRequest_headers, List.any_eq_false]
  intro t ht
  simp only [List.mem_append, List.mem_singleton] at ht
  rcases ht with (ht | ht) | ht
  · by_cases h : token = ""
    · simp [h] at ht
    · simp only [h, if_false, List.mem_singleton] at ht
      simp [ht, hAuth]
  · by_cases h : P.Getenv "HEROKU_HEADERS" = ""
    · simp [h] at ht
    · simp only [h, if_false, List.mem_map] at ht
      obtain ⟨kv, hkv, rfl⟩ := ht
      rcases hinj with h0 | hk
      · exact absurd h0 h
      · simp [hk kv hkv]
  · simp [ht, hAcc]

/-- A continuation request carries the `Range` headers of the request template
followed by the one added from the previous response. -/
theorem buildRequest_some_headerValues (r : Response) :
    (buildRequest P token url (some r)).headerValues "Range" =
      (buildRequest P token url none).headerValues "Range" ++
        [match r.Header.lookup "Next-Range" with
          | some (v :: _) => v
          | _ => ""] := by
  have hname : headerNameEq "Range" "Range" = true := by decide
  unfold Request.headerValues
  rw [buildRequest_some_headers, buildRequest_none_headers, List.filter_append, List.map_append]
  simp [hname, headerGet]

/-- Without an injected `Range` header the request template has no `Range`
value. -/
theorem buildRequest_none_headerValues
    (hinj : P.Getenv "HEROKU_HEADERS" = "" ∨
      ∀ kv ∈ P.jsonUnmarshal (P.Getenv "HEROKU_HEADERS"), headerNameEq kv.1 "Range" = false) :
    (buildRequest P token url none).headerValues "Range" = [] := by
  have h := buildRequest_none_no_range P token url hinj
  unfold Request.hasHeader at h
  rw [List.any_eq_false] at h
  unfold Request.headerValues
  rw [List.map_eq_nil_iff, List.filter_eq_nil_iff]
  intro t ht
  exact h t ht

/-- The last header of a continuation request is the `Range` header added from
the previous response. -/
theorem buildRequest_some_getLast (r : Response) :
    (buildRequest P token url (some r)).headers.getLast? =
      some ⟨"Range",
        match r.Header.lookup "Next-Range" with
        | some (v :: _) => v
        | _ => ""⟩ := by
  rw [buildRequest_some_headers]
  simp [headerGet]

/-! ### The four ways a call can end -/

theorem run_complete (pages : List Response) (last : Response) (m : Nat)
    (hans : answersFrom P tr token url 0 none (pages ++ [last]))
    (h206 : ∀ r ∈ pages, r.StatusCode = 206) (h200 : last.StatusCode = 200)
    (hacc : acceptsFrom respFn 0 pages) (hlast : respFn pages.length last = none) :
    apiPartialRequests P tr token url respFn (pages.length + (m + 2)) =
      { requests := requestsFrom P token url none (pages ++ [last])
        responses := pages ++ [last]
        handled := pages ++ [last]
        result := some none } := by
  obtain ⟨ha, hl⟩ := (answersFrom_append P tr token url last pages 0 none).1 hans
  have hc := loopCond_lastResponse pages none rfl h206
  have hstop : loopCond (some last) = false := by simp [loopCond, h200]
  simp only [Nat.zero_add] at hl
  rw [apiPartialRequests, partialLoop_pages P tr token url respFn (m + 2) pages 0 none rfl ha h206 hacc,
    Nat.zero_add,
    partialLoop_next P tr token url respFn (m + 1) pages.length _ none last hc hl (Or.inl h200) hlast,
    partialLoop_stop P tr token url respFn m (pages.length + 1) (some last) none hstop]
  simp [Run.prepend, Run.after, requestsFrom_append]

theorem run_status_error (pages : List Response) (last : Response) (m : Nat)
    (hans : answersFrom P tr token url 0 none (pages ++ [last]))
    (h206 : ∀ r ∈ pages, r.StatusCode = 206)
    (hn200 : last.StatusCode ≠ 200) (hn206 : last.StatusCode ≠ 206)
    (hacc : acceptsFrom respFn 0 pages) :
    apiPartialRequests P tr token url respFn (pages.length + (m + 1)) =
      { requests := requestsFrom P token url none (pages ++ [last])
        responses := pages ++ [last]
        handled := pages
        result := some (some (errorsNew last.Status)) } := by
  obtain ⟨ha, hl⟩ := (answersFrom_append P tr token url last pages 0 none).1 hans
  have hc := loopCond_lastResponse pages none rfl h206
  simp only [Nat.zero_add] at hl
  rw [apiPartialRequests, partialLoop_pages P tr token url respFn (m + 1) pages 0 none rfl ha h206 hacc,
    Nat.zero_add,
    partialLoop_status P tr token url respFn m pages.length _ none last hc hl hn200 hn206]
  simp [Run.prepend, requestsFrom_append]

theorem run_handler_error (pages : List Response) (last : Response) (e : GoError) (m : Nat)
    (hans : answersFrom P tr token url 0 none (pages ++ [last]))
    (h206 : ∀ r ∈ pages, r.StatusCode = 206)
    (hs : last.StatusCode = 200 ∨ last.StatusCode = 206)
    (hacc : acceptsFrom respFn 0 pages) (herr : respFn pages.length last = some e) :
    apiPartialRequests P tr token url respFn (pages.length + (m + 1)) =
      { requests := requestsFrom P token url none (pages ++ [last])
        responses := pages ++ [last]
        handled := pages ++ [last]
        result := some (some e) } := by
  obtain ⟨ha, hl⟩ := (answersFrom_append P tr token url last pages 0 none).1 hans
  have hc := loopCond_lastResponse pages none rfl h206
  simp only [Nat.zero_add] at hl
  rw [apiPartialRequests, partialLoop_pages P tr token url respFn (m + 1) pages 0 none rfl ha h206 hacc,
    Nat.zero_add,
    partialLoop_handler P tr token url respFn m pages.length _ none last e hc hl hs herr]
  simp [Run.prepend, requestsFrom_append]

theorem run_transport_error (pages : List Response) (e : GoError) (m : Nat)
    (hans : answersFrom P tr token url 0 none pages)
    (h206 : ∀ r ∈ pages, r.StatusCode = 206)
    (hacc : acceptsFrom respFn 0 pages)
    (hfail : tr pages.length (buildRequest P token url (lastResponse none pages)) =
      Except.error e) :
    apiPartialRequests P tr token url respFn (pages.length + (m + 1)) =
      { requests := requestsFrom P token url none pages ++
          [buildRequest P token url (lastResponse none pages)]
        responses := pages
        handled := pages
        result := some (some e) } := by
  have hc := loopCond_lastResponse pages none rfl h206
  rw [apiPartialRequests, partialLoop_pages P tr token url respFn (m + 1) pages 0 none rfl hans h206 hacc,
    Nat.zero_add,
    partialLoop_transport P tr token url respFn m pages.length _ none e hc hfail]
  simp [Run.prepend]

end Loop

/-! ## The paginated fetch: properties -/

/-- C1: when the server answers the successive requests of a call with `n`
responses of status 206 followed by one of status 200, without transport error,
and the handler always returns nil, `apiPartialRequests` issues exactly `n + 1`
requests, invokes the handler exactly `n + 1` times, once per response and in
arrival order, and returns nil (any step budget of at least `n + 2` is enough:
`n + 1` iterations and the last test of the loop condition). -/
theorem apiPartialRequests_drains_all_pages
    (P : Platform) (tr : Transport) (token url : String) (respFn : responseFn)
    (n : Nat) (pages : List Response) (last : Response) (fuel : Nat)
    (hn : pages.length = n)
    (h206 : ∀ r ∈ pages, r.StatusCode = 206) (h200 : last.StatusCode = 200)
    (hans : answersFrom P tr token url 0 none (pages ++ [last]))
    (hnil : ∀ k r, respFn k r = none)
    (hfuel : n + 2 ≤ fuel) :
    (apiPartialRequests P tr token url respFn fuel).requests.length = n + 1 ∧
      (apiPartialRequests P tr token url respFn fuel).responses = pages ++ [last] ∧
      (apiPartialRequests P tr token url respFn fuel).handled = pages ++ [last] ∧
      (apiPartialRequests P tr token url respFn fuel).handled.length = n + 1 ∧
      (apiPartialRequests P tr token url respFn fuel).result = some none := by
  subst hn
  obtain ⟨m, rfl⟩ : ∃ m, fuel = pages.length + (m + 2) := ⟨fuel - (pages.length + 2), by omega⟩
  rw [run_complete P tr token url respFn pages last m hans h206 h200
    (acceptsFrom_of_forall respFn hnil pages 0) (hnil _ _)]
  simp [requestsFrom_length]

/-- C1, the case [206, 206, 206, 200] of the specification: four handler calls,
in order, and a nil return. -/
theorem apiPartialRequests_drains_all_pages_witness :
    (apiPartialRequests samplePlatform
        (scripted [page206 "a", page206 "b", page206 "c", page200]) "tok" "/apps" acceptAll
        9).handled = [page206 "a", page206 "b", page206 "c", page200] ∧
      (apiPartialRequests samplePlatform
        (scripted [page206 "a", page206 "b", page206 "c", page200]) "tok" "/apps" acceptAll
        9).handled.length = 4 ∧
      (apiPartialRequests samplePlatform
        (scripted [page206 "a", page206 "b", page206 "c", page200]) "tok" "/apps" acceptAll
        9).result = some none :=
  have h := apiPartialRequests_drains_all_pages samplePlatform
    (scripted [page206 "a", page206 "b", page206 "c", page200]) "tok" "/apps" acceptAll 3
    [page206 "a", page206 "b", page206 "c"] page200 9 rfl (by decide) rfl
    ⟨rfl, rfl, rfl, rfl, trivial⟩ (fun _ _ => rfl) (by decide)
  ⟨h.2.2.1, h.2.2.2.1, h.2.2.2.2⟩

/-- C4: when the server answers with `n` responses of status 206 (each accepted
by the handler) followed by a response whose status is neither 200 nor 206,
`apiPartialRequests` invokes the handler exactly `n` times, once per 206 and not
for the failing response, issues no request after the failing response (`n + 1`
requests for `n + 1` responses), and returns an error whose message is exactly
the status line of that response. -/
theorem apiPartialRequests_unexpected_status
    (P : Platform) (tr : Transport) (token url : String) (respFn : responseFn)
    (n : Nat) (pages : List Response) (last : Response) (fuel : Nat)
    (hn : pages.length = n)
    (h206 : ∀ r ∈ pages, r.StatusCode = 206)
    (hn200 : last.StatusCode ≠ 200) (hn206 : last.StatusCode ≠ 206)
    (hans : answersFrom P tr token url 0 none (pages ++ [last]))
    (hacc : acceptsFrom respFn 0 pages)
    (hfuel : n + 1 ≤ fuel) :
    (apiPartialRequests P tr token url respFn fuel).handled = pages ∧
      (apiPartialRequests P tr token url respFn fuel).handled.length = n ∧
      (apiPartialRequests P tr token url respFn fuel).responses = pages ++ [last] ∧
      (apiPartialRequests P tr token url respFn fuel).requests.length = n + 1 ∧
      ∃ e, (apiPartialRequests P tr token url respFn fuel).result = some (some e) ∧
        e = errorsNew last.Status ∧ e.Error = last.Status := by
  subst hn
  obtain ⟨m, rfl⟩ : ∃ m, fuel = pages.length + (m + 1) := ⟨fuel - (pages.length + 1), by omega⟩
  rw [run_status_error P tr token url respFn pages last m hans h206 hn200 hn206 hacc]
  simp [requestsFrom_length, errorsNew, GoError.Error]

/-- C4, the case [206, 500] of the specification: one handler call, then the
status line as the error. -/
theorem apiPartialRequests_unexpected_status_witness :
    (apiPartialRequests samplePlatform (scripted [page206 "a", page500]) "tok" "/apps" acceptAll
        5).handled = [page206 "a"] ∧
      ∃ e, (apiPartialRequests samplePlatform (scripted [page206 "a", page500]) "tok" "/apps"
          acceptAll 5).result = some (some e) ∧
        e = errorsNew page500.Status ∧ e.Error = page500.Status :=
  have h := apiPartialRequests_unexpected_status samplePlatform (scripted [page206 "a", page500])
    "tok" "/apps" acceptAll 1 [page206 "a"] page500 5 rfl (by decide) (by decide) (by decide)
    ⟨rfl, rfl, trivial⟩ ⟨rfl, trivial⟩ (by decide)
  ⟨h.1, h.2.2.2.2⟩

/-- C5: when the handler returns a non-nil error on page `k` (the pages before
it, `k - 1` of them, all had status 206 and were accepted; page `k` has status
200 or 206), `apiPartialRequests` stops at once: it has issued `k` requests and
issues none for page `k + 1`, also when page `k` had status 206, it makes no
further handler call, and returns exactly the error of the handler. -/
theorem apiPartialRequests_handler_error
    (P : Platform) (tr : Transport) (token url : String) (respFn : responseFn)
    (k : Nat) (pages : List Response) (last : Response) (e : GoError) (fuel : Nat)
    (hk : pages.length + 1 = k)
    (h206 : ∀ r ∈ pages, r.StatusCode = 206)
    (hs : last.StatusCode = 200 ∨ last.StatusCode = 206)
    (hans : answersFrom P tr token url 0 none (pages ++ [last]))
    (hacc : acceptsFrom respFn 0 pages)
    (herr : respFn pages.length last = some e)
    (hfuel : k ≤ fuel) :
    (apiPartialRequests P tr token url respFn fuel).requests.length = k ∧
      (apiPartialRequests P tr token url respFn fuel).responses = pages ++ [last] ∧
      (apiPartialRequests P tr token url respFn fuel).handled = pages ++ [last] ∧
      (apiPartialRequests P tr token url respFn fuel).result = some (some e) := by
  subst hk
  obtain ⟨m, rfl⟩ : ∃ m, fuel = pages.length + (m + 1) := ⟨fuel - (pages.length + 1), by omega⟩
  rw [run_handler_error P tr token url respFn pages last e m hans h206 hs hacc herr]
  simp [requestsFrom_length]

/-- C5, the case of the specification: a failure on page 2 of a sequence of
three pages; two requests, two handler calls, the failure returned. -/
theorem apiPartialRequests_handler_error_witness :
    (apiPartialRequests samplePlatform (scripted [page206 "a", page206 "b", page200]) "tok"
        "/apps" failSecond 9).requests.length = 2 ∧
      (apiPartialRequests samplePlatform (scripted [page206 "a", page206 "b", page200]) "tok"
        "/apps" failSecond 9).handled = [page206 "a", page206 "b"] ∧
      (apiPartialRequests samplePlatform (scripted [page206 "a", page206 "b", page200]) "tok"
        "/apps" failSecond 9).result = some (some (GoError.foreign 7 "bad page")) :=
  have h := apiPartialRequests_handler_error samplePlatform
    (scripted [page206 "a", page206 "b", page200]) "tok" "/apps" failSecond 2
    [page206 "a"] (page206 "b") (GoError.foreign 7 "bad page") 9 rfl (by decide)
    (Or.inr rfl) ⟨rfl, rfl, trivial⟩ ⟨rfl, trivial⟩ rfl (by decide)
  ⟨h.1, h.2.2.1, h.2.2.2⟩

/-- C10: when a request fails with a transport error (the responses before it
all had status 206 and were accepted, or it is the first request), that same
error is returned at once: the failed request is issued once and not retried,
no request follows it, and the handler is invoked neither for it nor
afterwards. -/
theorem apiPartialRequests_transport_error
    (P : Platform) (tr : Transport) (token url : String) (respFn : responseFn)
    (pages : List Response) (e : GoError) (fuel : Nat)
    (h206 : ∀ r ∈ pages, r.StatusCode = 206)
    (hans : answersFrom P tr token url 0 none pages)
    (hacc : acceptsFrom respFn 0 pages)
    (hfail : tr pages.length (buildRequest P token url (lastResponse none pages)) =
      Except.error e)
    (hfuel : pages.length + 1 ≤ fuel) :
    (apiPartialRequests P tr token url respFn fuel).requests =
        requestsFrom P token url none pages ++
          [buildRequest P token url (lastResponse none pages)] ∧
      (apiPartialRequests P tr token url respFn fuel).requests.length = pages.length + 1 ∧
      (apiPartialRequests P tr token url respFn fuel).responses = pages ∧
      (apiPartialRequests P tr token url respFn fuel).handled = pages ∧
      (apiPartialRequests P tr token url respFn fuel).result = some (some e) := by
  obtain ⟨m, rfl⟩ : ∃ m, fuel = pages.length + (m + 1) := ⟨fuel - (pages.length + 1), by omega⟩
  rw [run_transport_error P tr token url respFn pages e m hans h206 hacc hfail]
  simp [requestsFrom_length]

/-- C10 on a transport that fails on the second request: two requests, one
handler call, the transport error returned. -/
theorem apiPartialRequests_transport_error_witness :
    (apiPartialRequests samplePlatform brokenTransport "tok" "/apps" acceptAll
        9).requests.length = 2 ∧
      (apiPartialRequests samplePlatform brokenTransport "tok" "/apps" acceptAll
        9).handled = [page206 "a"] ∧
      (apiPartialRequests samplePlatform brokenTransport "tok" "/apps" acceptAll
        9).result = some (some (GoError.foreign 1 "dial tcp: timeout")) :=
  have h := apiPartialRequests_transport_error samplePlatform brokenTransport "tok" "/apps"
    acceptAll [page206 "a"] (GoError.foreign 1 "dial tcp: timeout") 9 (by decide)
    ⟨rfl, trivial⟩ ⟨rfl, trivial⟩ rfl (by decide)
  ⟨h.2.1, h.2.2.2.1, h.2.2.2.2⟩


/-- C2 fails as stated: with `HEROKU_HEADERS` set to a JSON object that has a
`Range` key, the second request carries two `Range` headers, and the first of
them, the value that `Header.Get` gives, is the injected one and not the
`Next-Range` value "a" of the first response. -/
theorem range_not_next_range_counterexample :
    (apiPartialRequests rangePlatform (scripted [page206 "a", page200]) "tok" "/apps" acceptAll
        9).responses[0]? = some (page206 "a") ∧
      (page206 "a").Header.lookup "Next-Range" = some ["a"] ∧
      ∃ q, (apiPartialRequests rangePlatform (scripted [page206 "a", page200]) "tok" "/apps"
          acceptAll 9).requests[1]? = some q ∧
        q.headerValues "Range" = ["hack", "a"] ∧
        (q.headerValues "Range").head? = some "hack" :=
  ⟨by decide, by decide,
    buildRequest rangePlatform "tok" "/apps" (some (page206 "a")), by decide, by decide,
    by decide⟩

/-- C2, amended: in every run of `apiPartialRequests`, for every `i > 0` the
request number `i` has as its last header a `Range` header whose value is
exactly the first `Next-Range` value of the response number `i - 1` (the empty
string when that response has none), and this is the last of its `Range`
values; when `HEROKU_HEADERS` is unset or injects no header named `Range`, it is
the only `Range` header of the request. -/
theorem apiPartialRequests_range_echoes_next_range
    (P : Platform) (tr : Transport) (token url : String) (respFn : responseFn)
    (fuel i : Nat) (q : Request)
    (hi : 0 < i)
    (hq : (apiPartialRequests P tr token url respFn fuel).requests[i]? = some q) :
    ∃ r, (apiPartialRequests P tr token url respFn fuel).responses[i - 1]? = some r ∧
      q.headers.getLast? =
        some ⟨"Range",
          match r.Header.lookup "Next-Range" with
          | some (v :: _) => v
          | _ => ""⟩ ∧
      (q.headerValues "Range").getLast? =
        some (match r.Header.lookup "Next-Range" with
          | some (v :: _) => v
          | _ => "") ∧
      ((P.Getenv "HEROKU_HEADERS" = "" ∨
          ∀ kv ∈ P.jsonUnmarshal (P.Getenv "HEROKU_HEADERS"),
            headerNameEq kv.1 "Range" = false) →
        q.headerValues "Range" =
          [match r.Header.lookup "Next-Range" with
            | some (v :: _) => v
            | _ => ""]) := by
  obtain ⟨j, rfl⟩ : ∃ j, i = j + 1 := ⟨i - 1, by omega⟩
  unfold apiPartialRequests at hq ⊢
  have hreq : (requestsFrom P token url none
      (partialLoop P tr token url respFn fuel 0 none none).responses ++
        [buildRequest P token url
          (lastResponse none (partialLoop P tr token url respFn fuel 0 none none).responses)])[j + 1]? =
      some q := by
    rcases partialLoop_requests P tr token url respFn fuel 0 none none with h | h
    · rw [h] at hq
      have hlt := (List.getElem?_eq_some_iff.1 hq).1
      rw [List.getElem?_append_left hlt]
      exact hq
    · rw [h] at hq; exact hq
  obtain ⟨r, hr, rfl⟩ := requestsFrom_succ P token url _ none j q hreq
  refine ⟨r, by simpa using hr, buildRequest_some_getLast P token url r, ?_, ?_⟩
  · rw [buildRequest_some_headerValues]
    simp
  · intro hinj
    rw [buildRequest_some_headerValues, buildRequest_none_headerValues P token url hinj]
    rfl

/-- C2 amended, on a run of three pages with an empty environment: the second
request carries exactly one `Range` header, with the marker "a" of the first
response. -/
theorem apiPartialRequests_range_echoes_next_range_witness :
    (apiPartialRequests samplePlatform (scripted [page206 "a", page206 "b", page200]) "tok"
        "/apps" acceptAll 9).responses[0]? = some (page206 "a") ∧
      ∃ q, (apiPartialRequests samplePlatform (scripted [page206 "a", page206 "b", page200])
          "tok" "/apps" acceptAll 9).requests[1]? = some q ∧
        q.headers.getLast? = some ⟨"Range", "a"⟩ ∧
        q.headerValues "Range" = ["a"] := by
  obtain ⟨r, hr, hlast, _, honly⟩ := apiPartialRequests_range_echoes_next_range samplePlatform
    (scripted [page206 "a", page206 "b", page200]) "tok" "/apps" acceptAll 9 1
    (buildRequest samplePlatform "tok" "/apps" (some (page206 "a"))) (by decide) (by decide)
  have h0 : (apiPartialRequests samplePlatform (scripted [page206 "a", page206 "b", page200])
      "tok" "/apps" acceptAll 9).responses[1 - 1]? = some (page206 "a") := by decide
  rw [h0] at hr
  cases hr
  exact ⟨h0, _, by decide, hlast, honly (Or.inl rfl)⟩

/-- C3 fails as stated: with `HEROKU_HEADERS` set to a JSON object that has a
`Range` key, the first and only request of a call answered by a 200 carries a
`Range` header. -/
theorem first_request_range_counterexample :
    ∃ q, (apiPartialRequests rangePlatform (scripted [page200]) "tok" "/apps" acceptAll
        5).requests = [q] ∧
      q.hasHeader "Range" = true ∧
      q.carries "Range" "hack" ∧
      (apiPartialRequests rangePlatform (scripted [page200]) "tok" "/apps" acceptAll
        5).handled = [page200] :=
  ⟨buildRequest rangePlatform "tok" "/apps" none, by decide, by decide,
    ⟨⟨"Range", "hack"⟩, by decide, by decide, rfl⟩, by decide⟩

/-- C3, amended: when `HEROKU_HEADERS` is unset or injects no header named
`Range`, the first request of `apiPartialRequests` carries no `Range` header,
for every token and resource path; and when the first response is a 200,
exactly one request is issued, without `Range` header, exactly one handler call
occurs, and the call returns what the handler returned. -/
theorem apiPartialRequests_first_request_no_range
    (P : Platform) (tr : Transport) (token url : String) (respFn : responseFn) (fuel : Nat)
    (hinj : P.Getenv "HEROKU_HEADERS" = "" ∨
      ∀ kv ∈ P.jsonUnmarshal (P.Getenv "HEROKU_HEADERS"), headerNameEq kv.1 "Range" = false) :
    (∀ q, (apiPartialRequests P tr token url respFn fuel).requests[0]? = some q →
        q.hasHeader "Range" = false) ∧
      (∀ r, tr 0 (buildRequest P token url none) = Except.ok r → r.StatusCode = 200 →
        2 ≤ fuel →
        ∃ q, (apiPartialRequests P tr token url respFn fuel).requests = [q] ∧
          q.hasHeader "Range" = false ∧
          (apiPartialRequests P tr token url respFn fuel).handled = [r] ∧
          (apiPartialRequests P tr token url respFn fuel).result = some (respFn 0 r)) := by
  have hno := buildRequest_none_no_range P token url hinj
  constructor
  · intro q hq
    cases fuel with
    | zero => simp [apiPartialRequests, partialLoop] at hq
    | succ f =>
      unfold apiPartialRequests at hq
      rw [partialLoop_first_request P tr token url respFn f 0 none none rfl] at hq
      cases hq
      exact hno
  · intro r htr h200 hfuel
    obtain ⟨m, rfl⟩ : ∃ m, fuel = m + 2 := ⟨fuel - 2, by omega⟩
    refine ⟨buildRequest P token url none, ?_, hno, ?_, ?_⟩ <;>
      unfold apiPartialRequests <;>
      cases hh : respFn 0 r with
      | some e =>
        rw [partialLoop_handler P tr token url respFn (m + 1) 0 none none r e rfl htr
          (Or.inl h200) hh]
      | none =>
        rw [partialLoop_next P tr token url respFn (m + 1) 0 none none r rfl htr
          (Or.inl h200) hh,
          partialLoop_stop P tr token url respFn m 1 (some r) none
            (by simp [loopCond, h200])]
        simp [Run.after]

/-- C3 amended, the case [200] of the specification with an empty environment:
one request without `Range` header, one handler call. -/
theorem apiPartialRequests_first_request_no_range_witness :
    ∃ q, (apiPartialRequests samplePlatform (scripted [page200]) "tok" "/apps" acceptAll
        5).requests = [q] ∧
      q.hasHeader "Range" = false ∧
      (apiPartialRequests samplePlatform (scripted [page200]) "tok" "/apps" acceptAll
        5).handled = [page200] ∧
      (apiPartialRequests samplePlatform (scripted [page200]) "tok" "/apps" acceptAll
        5).result = some (acceptAll 0 page200) :=
  (apiPartialRequests_first_request_no_range samplePlatform (scripted [page200]) "tok" "/apps"
    acceptAll 5 (Or.inl rfl)).2 page200 rfl rfl (by decide)

/-- C6 fails as stated: after a response of status 206 that has no `Next-Range`
header, a further request is issued. -/
theorem missing_next_range_counterexample :
    (apiPartialRequests samplePlatform (scripted [page206bare, page200]) "tok" "/apps" acceptAll
        9).responses[0]? = some page206bare ∧
      page206bare.StatusCode = 206 ∧
      page206bare.Header.lookup "Next-Range" = none ∧
      (apiPartialRequests samplePlatform (scripted [page206bare, page200]) "tok" "/apps" acceptAll
        9).requests.length = 2 ∧
      (apiPartialRequests samplePlatform (scripted [page206bare, page200]) "tok" "/apps" acceptAll
        9).requests[1]? = some (buildRequest samplePlatform "tok" "/apps" (some page206bare)) :=
  ⟨by decide, by decide, by decide, by decide, by decide⟩

/-- C6, amended: a response of status 206 without `Next-Range` header does not
end the sequence; once the handler has accepted it, `apiPartialRequests` issues
a further request, to which it adds, as the last header, a `Range` header with
the empty value; that is the only `Range` header of the request when
`HEROKU_HEADERS` is unset or injects no header named `Range` (the step budget
must reach that request). -/
theorem apiPartialRequests_missing_next_range_continues
    (P : Platform) (tr : Transport) (token url : String) (respFn : responseFn)
    (fuel i : Nat) (r : Response)
    (hres : (apiPartialRequests P tr token url respFn fuel).responses[i]? = some r)
    (h206 : r.StatusCode = 206)
    (hbare : r.Header.lookup "Next-Range" = none)
    (hacc : respFn i r = none)
    (hfuel : i + 2 ≤ fuel) :
    ∃ q, (apiPartialRequests P tr token url respFn fuel).requests[i + 1]? = some q ∧
      i + 2 ≤ (apiPartialRequests P tr token url respFn fuel).requests.length ∧
      q.carries "Range" "" ∧ q.headers.getLast? = some ⟨"Range", ""⟩ ∧
      ((P.Getenv "HEROKU_HEADERS" = "" ∨
          ∀ kv ∈ P.jsonUnmarshal (P.Getenv "HEROKU_HEADERS"),
            headerNameEq kv.1 "Range" = false) →
        q.headerValues "Range" = [""]) := by
  have hget : headerGet r.Header "Next-Range" = "" := by simp [headerGet, hbare]
  have hq := partialLoop_continues P tr token url respFn fuel 0 none none i r hres h206
    (by simpa using hacc) hfuel
  refine ⟨buildRequest P token url (some r), hq, ?_, ?_, ?_, ?_⟩
  · have hlt := (List.getElem?_eq_some_iff.1 hq).1
    unfold apiPartialRequests
    omega
  · have hname : headerNameEq "Range" "Range" = true := by decide
    refine ⟨⟨"Range", ""⟩, ?_, hname, rfl⟩
    rw [buildRequest_some_headers, hget]
    simp
  · rw [buildRequest_some_headers, hget]
    simp
  · intro hinj
    rw [buildRequest_some_headerValues, buildRequest_none_headerValues P token url hinj, hbare]
    rfl

/-- C6 amended, on a run whose first page is a 206 without marker: a second
request is issued, with the empty `Range` value. -/
theorem apiPartialRequests_missing_next_range_continues_witness :
    ∃ q, (apiPartialRequests samplePlatform (scripted [page206bare, page200]) "tok" "/apps"
        acceptAll 9).requests[0 + 1]? = some q ∧
      0 + 2 ≤ (apiPartialRequests samplePlatform (scripted [page206bare, page200]) "tok" "/apps"
        acceptAll 9).requests.length ∧
      q.carries "Range" "" ∧ q.headers.getLast? = some ⟨"Range", ""⟩ ∧
      ((samplePlatform.Getenv "HEROKU_HEADERS" = "" ∨
          ∀ kv ∈ samplePlatform.jsonUnmarshal (samplePlatform.Getenv "HEROKU_HEADERS"),
            headerNameEq kv.1 "Range" = false) →
        q.headerValues "Range" = [""]) :=
  apiPartialRequests_missing_next_range_continues samplePlatform
    (scripted [page206bare, page200]) "tok" "/apps" acceptAll 9 0 page206bare
    (by decide) (by decide) (by decide) rfl (by decide)

/-! ## The trust bootstrap: properties -/

/-- C7: `useSystemCerts` depends on the value of `HEROKU_USE_SYSTEM_CERTS` only;
it is false exactly when that value is exactly "false" or exactly "0", and true
for every other value, the empty value of an unset variable included. -/
theorem useSystemCerts_spec (P : Platform) :
    (useSystemCerts P = false ↔
        (P.Getenv "HEROKU_USE_SYSTEM_CERTS" = "false" ∨
          P.Getenv "HEROKU_USE_SYSTEM_CERTS" = "0")) ∧
      (useSystemCerts P = true ↔
        ¬ (P.Getenv "HEROKU_USE_SYSTEM_CERTS" = "false" ∨
          P.Getenv "HEROKU_USE_SYSTEM_CERTS" = "0")) ∧
      (P.Getenv "HEROKU_USE_SYSTEM_CERTS" = "" → useSystemCerts P = true) ∧
      (∀ Q : Platform,
        Q.Getenv "HEROKU_USE_SYSTEM_CERTS" = P.Getenv "HEROKU_USE_SYSTEM_CERTS" →
        useSystemCerts Q = useSystemCerts P) := by
  refine ⟨?_, ?_, ?_, ?_⟩
  · unfold useSystemCerts
    by_cases h1 : P.Getenv "HEROKU_USE_SYSTEM_CERTS" = "false" <;>
      by_cases h2 : P.Getenv "HEROKU_USE_SYSTEM_CERTS" = "0" <;> simp [h1, h2]
  · unfold useSystemCerts
    by_cases h1 : P.Getenv "HEROKU_USE_SYSTEM_CERTS" = "false" <;>
      by_cases h2 : P.Getenv "HEROKU_USE_SYSTEM_CERTS" = "0" <;> simp [h1, h2]
  · intro h
    unfold useSystemCerts
    rw [h]
    decide
  · intro Q h
    unfold useSystemCerts
    rw [h]

/-- C8: when the cache file `cacert.pem` is missing, its path can be created,
and the bundle endpoint answers with a bundle from which at least one
certificate decodes, `getCACerts` performs exactly one network fetch, leaves the
cache file holding the fetched bytes, reads the file twice (the failed read and
exactly one re-read), prints nothing, and returns a non-nil pool with at least
one certificate. -/
theorem getCACerts_fetches_missing_bundle (P : Platform) (s : Sys) (res : Response)
    (hmissing : s.files.lookup (P.Join P.AppDir "cacert.pem") = none)
    (hcreate : s.creatable (P.Join P.AppDir "cacert.pem") = true)
    (hnet : s.network (certRequest P) = Except.ok res)
    (hcert : P.decodePEM res.Body ≠ []) :
    (getCACerts P s).2.fetched = s.fetched ++ [certRequest P] ∧
      (getCACerts P s).2.files.lookup (P.Join P.AppDir "cacert.pem") = some res.Body ∧
      (getCACerts P s).2.reads =
        s.reads ++ [P.Join P.AppDir "cacert.pem", P.Join P.AppDir "cacert.pem"] ∧
      (getCACerts P s).2.console = s.console ∧
      ∃ certs, (getCACerts P s).1 = some certs ∧ certs ≠ [] ∧ certs = P.decodePEM res.Body := by
  simp [getCACerts, ReadFile, downloadCert, osCreate, goreqDo, ioCopy, AppendCertsFromPEM,
    NewCertPool, hmissing, hcreate, hnet, hcert, List.lookup]

/-- C8 on a system without cache file whose network serves a bundle. -/
theorem getCACerts_fetches_missing_bundle_witness :
    (getCACerts samplePlatform freshSys).2.fetched = [certRequest samplePlatform] ∧
      (getCACerts samplePlatform freshSys).2.files.lookup "/home/u/.heroku/cacert.pem" =
        some [45, 45, 66] ∧
      (getCACerts samplePlatform freshSys).1 = some [45, 45] :=
  have h := getCACerts_fetches_missing_bundle samplePlatform freshSys
    { StatusCode := 200, Status := "200 OK", Header := [], Body := [45, 45, 66] }
    rfl rfl rfl (by decide)
  ⟨h.1, h.2.1, by decide⟩

/-- C9: when the cache file is readable but no certificate decodes from its
bytes (garbage, or an empty file), `getCACerts` prints one warning and nothing
else, returns the nil pool, performs no network fetch, reads the file once and
leaves the files unchanged; the call returns normally. -/
theorem getCACerts_garbage_cache (P : Platform) (s : Sys) (data : Bytes)
    (hfile : s.files.lookup (P.Join P.AppDir "cacert.pem") = some data)
    (hgarbage : P.decodePEM data = []) :
    (getCACerts P s).1 = none ∧
      (getCACerts P s).2.console =
        s.console ++ [Message.warning ("Error parsing " ++ P.Join P.AppDir "cacert.pem")] ∧
      (getCACerts P s).2.fetched = s.fetched ∧
      (getCACerts P s).2.files = s.files ∧
      (getCACerts P s).2.reads = s.reads ++ [P.Join P.AppDir "cacert.pem"] := by
  simp [getCACerts, ReadFile, AppendCertsFromPEM, NewCertPool, Warn, hfile, hgarbage]

/-- C9 on a system whose cache file holds bytes that are no certificate. -/
theorem getCACerts_garbage_cache_witness :
    (getCACerts samplePlatform garbageSys).1 = none ∧
      (getCACerts samplePlatform garbageSys).2.console =
        [Message.warning "Error parsing /home/u/.heroku/cacert.pem"] ∧
      (getCACerts samplePlatform garbageSys).2.fetched = [] :=
  have h := getCACerts_garbage_cache samplePlatform garbageSys [1, 2, 3] rfl rfl
  ⟨h.1, h.2.1, h.2.2.1⟩

end HerokuCli
